import Mathlib

/-!
Shallow embedding of the image-transform callbacks of
`src/main.py` (class `ImageEditorApp`): channel extraction
(`show_channel`), red-channel threshold mask (`red_mask`), sharpening
convolution (`sharpen`), and rectangle drawing (`draw_rectangle`),
together with the session state (`self.img`) they act on.

An image buffer (`numpy` RGB array of shape height x width x 3, dtype
uint8) is embedded as a list of rows, each row a list of (r, g, b)
triples of natural numbers; well-formedness says all rows have the
same length and every sample fits in a byte.
-/

/-- An RGB sample triple (red, green, blue). -/
abbrev Pix := Nat × Nat × Nat

/-- An image buffer: list of rows, each a list of RGB pixels. -/
abbrev Img := List (List Pix)

/-- Width of a buffer: length of its first row (0 for an empty buffer),
mirroring `img.shape[1]` of a numpy array. -/
def width (img : Img) : Nat :=
  match img with
  | [] => 0
  | r :: _ => r.length

/-- Shape of a buffer as the list of its row lengths. -/
def shape (img : Img) : List Nat := img.map List.length

/-- All samples of a pixel fit in a byte. -/
def pixOk (p : Pix) : Bool := p.1 ≤ 255 && p.2.1 ≤ 255 && p.2.2 ≤ 255

/-- Well-formed buffer: rectangular (all rows of length `width`) and
every sample in [0,255] — the numpy `uint8` invariant. -/
def wfB (img : Img) : Bool :=
  img.all (fun r => r.length == width img) && img.all (List.all · pixOk)

/-- Pixel lookup at row `y`, column `x`. -/
def get2? (img : Img) (y x : Nat) : Option Pix :=
  img[y]?.bind (fun r => r[x]?)

/-- Channel selector, the `"R"`/`"G"`/`"B"` strings of `show_channel`. -/
inductive Channel | R | G | B
deriving DecidableEq, Repr

/-- `{"R": 0, "G": 1, "B": 2}[channel]` of `show_channel`: project the
selected sample out of a pixel. -/
def getCh (c : Channel) (p : Pix) : Nat :=
  match c with
  | Channel.R => p.1
  | Channel.G => p.2.1
  | Channel.B => p.2.2

/-- Per-pixel part of `show_channel`: `np.stack([ch] * 3, axis=-1)`
replicates the selected channel into all three channels. -/
def showChannelPix (c : Channel) (p : Pix) : Pix :=
  (getCh c p, getCh c p, getCh c p)

/-- `show_channel` transform on a loaded buffer:
`ch = self.img[:, :, idx]; rgb = np.stack([ch] * 3, axis=-1)`. -/
def showChannelBuf (img : Img) (c : Channel) : Img :=
  img.map (List.map (showChannelPix c))

/-- Per-pixel part of `red_mask`:
`(self.img[:, :, 0] > thresh).astype(np.uint8) * 255`, stacked into
all three channels. -/
def redMaskPix (t : Nat) (p : Pix) : Pix :=
  if t < p.1 then (255, 255, 255) else (0, 0, 0)

/-- `red_mask` transform on a loaded buffer with threshold `t`:
`mask = (self.img[:, :, 0] > thresh).astype(np.uint8) * 255;
rgb = np.stack([mask] * 3, axis=-1)`. -/
def redMaskBuf (img : Img) (t : Nat) : Img :=
  img.map (List.map (redMaskPix t))

/-- Red channel plane of a buffer, `img[:, :, 0]`. -/
def redChannel (img : Img) : List (List Nat) :=
  img.map (List.map (·.1))

/-- `saturate_cast<uint8>`: the saturating conversion OpenCV applies
when `cv2.filter2D` writes into a `uint8` destination (`ddepth = -1`). -/
def sat (x : Int) : Nat := (min 255 (max 0 x)).toNat

/-- `BORDER_REFLECT_101` index folding, `cv2.filter2D`'s default border
for the one-pixel reach of the 3x3 kernel: index −1 maps to 1 and
index `n` maps to `n − 2`. -/
def ref101 (n : Nat) (i : Int) : Int :=
  if i < 0 then -i else if (n : Int) ≤ i then 2 * ((n : Int) - 1) - i else i

/-- Border-folded pixel read used by the convolution (default `(0,0,0)`
outside any valid index, reachable only on degenerate tiny buffers). -/
def getBR (img : Img) (y x : Int) : Pix :=
  (get2? img (ref101 img.length y).toNat (ref101 (width img) x).toNat).getD (0, 0, 0)

/-- One output pixel of `sharpen`: the 3x3 kernel
`[[0,-1,0],[-1,5,-1],[0,-1,0]]` applied at `(y, x)` independently per
channel, saturated to a byte. -/
def sharpenAt (img : Img) (y x : Nat) : Pix :=
  let c := getBR img y x
  let u := getBR img ((y : Int) - 1) x
  let d := getBR img ((y : Int) + 1) x
  let l := getBR img y ((x : Int) - 1)
  let r := getBR img y ((x : Int) + 1)
  (sat (5 * (c.1 : Int) - u.1 - d.1 - l.1 - r.1),
   sat (5 * (c.2.1 : Int) - u.2.1 - d.2.1 - l.2.1 - r.2.1),
   sat (5 * (c.2.2 : Int) - u.2.2 - d.2.2 - l.2.2 - r.2.2))

/-- `sharpen` transform on a loaded buffer:
`cv2.filter2D(self.img, -1, kernel)` with the fixed 3x3 kernel and
`ddepth = -1` (uint8 in, uint8 out, saturating). -/
def sharpenBuf (img : Img) : Img :=
  (List.range img.length).map (fun y =>
    (List.range (width img)).map (fun x => sharpenAt img y x))

/-- Whether pixel `(x, y)` lies on the 2-pixel-wide blue outline that
`cv2.rectangle(img, (x1,y1), (x2,y2), (0,0,255), thickness=2)` paints:
within one pixel of a vertical side and inside the vertical span of the
(corner-normalized) rectangle, or symmetrically for a horizontal side. -/
def onRectOutline (x1 y1 x2 y2 x y : Nat) : Bool :=
  ((((x : Int) - min x1 x2).natAbs ≤ 1 || ((x : Int) - max x1 x2).natAbs ≤ 1) &&
    (((min y1 y2 : Nat) : Int) - 1 ≤ (y : Int) && (y : Int) ≤ ((max y1 y2 : Nat) : Int) + 1))
  || ((((y : Int) - min y1 y2).natAbs ≤ 1 || ((y : Int) - max y1 y2).natAbs ≤ 1) &&
    (((min x1 x2 : Nat) : Int) - 1 ≤ (x : Int) && (x : Int) ≤ ((max x1 x2 : Nat) : Int) + 1))

/-- `draw_rectangle` transform on a loaded buffer:
`img_copy = self.img.copy(); cv2.rectangle(img_copy, (x1, y1), (x2, y2),
(0, 0, 255), thickness=2)` — outline pixels become pure blue, all other
pixels keep their value. -/
def drawRectBuf (img : Img) (x1 y1 x2 y2 : Nat) : Img :=
  img.mapIdx (fun y row =>
    row.mapIdx (fun x p => if onRectOutline x1 y1 x2 y2 x y then (0, 0, 255) else p))

/-- Result of one GUI callback: the session buffer slot (`self.img`)
after the call, what was handed to `_update_display` (if anything), and
whether `messagebox.showwarning` fired. -/
structure HResult where
  img : Option Img
  displayed : Option Img
  warned : Bool
deriving DecidableEq, Repr

/-- The `show_channel` callback: warn if no image is loaded, otherwise
display the channel-extracted buffer; `self.img` is never reassigned. -/
def showChannelH (st : Option Img) (c : Channel) : HResult :=
  match st with
  | none => ⟨none, none, true⟩
  | some img => ⟨some img, some (showChannelBuf img c), false⟩

/-- The `red_mask` callback: warn if no image is loaded; abort silently
if the threshold prompt is dismissed (`thresh is None`); otherwise
display the mask; `self.img` is never reassigned. -/
def redMaskH (st : Option Img) (thresh : Option Nat) : HResult :=
  match st with
  | none => ⟨none, none, true⟩
  | some img =>
    match thresh with
    | none => ⟨some img, none, false⟩
    | some t => ⟨some img, some (redMaskBuf img t), false⟩

/-- The `sharpen` callback: warn if no image is loaded, otherwise
display the sharpened buffer; `self.img` is never reassigned. -/
def sharpenH (st : Option Img) : HResult :=
  match st with
  | none => ⟨none, none, true⟩
  | some img => ⟨some img, some (sharpenBuf img), false⟩

/-- The `draw_rectangle` callback: warn if no image is loaded; abort
silently if any of the four coordinate prompts is dismissed
(`None in (x1, y1, x2, y2)`); otherwise display the copy with the
rectangle drawn; `self.img` is never reassigned. -/
def drawRectangleH (st : Option Img) (ox1 oy1 ox2 oy2 : Option Nat) : HResult :=
  match st with
  | none => ⟨none, none, true⟩
  | some img =>
    match ox1, oy1, ox2, oy2 with
    | some x1, some y1, some x2, some y2 =>
        ⟨some img, some (drawRectBuf img x1 y1 x2 y2), false⟩
    | _, _, _, _ => ⟨some img, none, false⟩

example : redMaskBuf [[(200, 3, 4), (10, 0, 0)]] 100 = [[(255, 255, 255), (0, 0, 0)]] := by
  decide

example : showChannelBuf [[(1, 2, 3)]] Channel.G = [[(2, 2, 2)]] := by decide

/-! ### Helper lemmas shared across the claim theorems -/

theorem get2?_map_pix (f : Pix → Pix) (img : Img) (y x : Nat) :
    get2? (img.map (List.map f)) y x = (get2? img y x).map f := by
  unfold get2?
  rw [List.getElem?_map]
  cases img[y]? with
  | none => rfl
  | some r => simp [List.getElem?_map]

theorem shape_map_pix (f : Pix → Pix) (img : Img) :
    shape (img.map (List.map f)) = shape img := by
  simp [shape, List.map_map, Function.comp_def]

theorem sat_le (x : Int) : sat x ≤ 255 := by
  unfold sat; omega

theorem wfB_rect (img : Img) (hwf : wfB img = true) :
    ∀ r ∈ img, r.length = width img := by
  unfold wfB at hwf
  rw [Bool.and_eq_true] at hwf
  intro r hr
  simpa using List.all_eq_true.mp hwf.1 r hr

theorem wfB_pix (img : Img) (hwf : wfB img = true) :
    ∀ r ∈ img, ∀ p ∈ r, pixOk p = true := by
  unfold wfB at hwf
  rw [Bool.and_eq_true] at hwf
  intro r hr p hp
  exact List.all_eq_true.mp (List.all_eq_true.mp hwf.2 r hr) p hp

theorem redMaskPix_idem (t : Nat) (p : Pix) (hp : pixOk p = true) :
    redMaskPix t (redMaskPix t p) = redMaskPix t p := by
  have h1 : p.1 ≤ 255 := by
    unfold pixOk at hp
    simp only [Bool.and_eq_true, decide_eq_true_eq] at hp
    exact hp.1.1
  unfold redMaskPix
  by_cases h : t < p.1
  · have ht : t < 255 := lt_of_lt_of_le h h1
    simp [h, ht]
  · simp [h]

theorem redMask_idem_aux (img : Img) (t : Nat) (hwf : wfB img = true) :
    redMaskBuf (redMaskBuf img t) t = redMaskBuf img t := by
  have hpix := wfB_pix img hwf
  unfold redMaskBuf
  rw [List.map_map]
  apply List.map_congr_left
  intro r hr
  simp only [Function.comp_def, List.map_map]
  apply List.map_congr_left
  intro p hp
  exact redMaskPix_idem t p (hpix r hr p hp)

theorem redMaskBuf_ofRed (img : Img) (t : Nat) :
    redMaskBuf img t = (redChannel img).map
      (List.map (fun v => if t < v then ((255 : Nat), (255 : Nat), (255 : Nat)) else (0, 0, 0))) := by
  unfold redMaskBuf redChannel
  rw [List.map_map]
  congr 1
  funext r
  rw [Function.comp_apply, List.map_map]
  rfl

/-! ### Claim theorems -/

/-- C1: for every loaded buffer and threshold t in [0,255], `red_mask`
returns a new buffer of the same shape whose pixels all have the three
channels equal, each pixel is (255,255,255) or (0,0,0), and it is
(255,255,255) exactly when the input's red sample exceeds t. -/
theorem red_mask_output_binary (img : Img) (t : Nat) (ht : t ≤ 255) :
    shape (redMaskBuf img t) = shape img ∧
    ∀ y x p q, get2? img y x = some p → get2? (redMaskBuf img t) y x = some q →
      (q.1 = q.2.1 ∧ q.1 = q.2.2) ∧ (q = (255, 255, 255) ∨ q = (0, 0, 0)) ∧
      (q = (255, 255, 255) ↔ t < p.1) := by
  refine ⟨shape_map_pix _ img, ?_⟩
  intro y x p q hp hq
  unfold redMaskBuf at hq
  rw [get2?_map_pix, hp] at hq
  simp only [Option.map_some'] at hq
  obtain rfl : redMaskPix t p = q := Option.some.inj hq
  by_cases h : t < p.1
  · simp [redMaskPix, h]
  · simp [redMaskPix, h]
    decide

/-- Witness for C1 at a concrete buffer and threshold 100. -/
theorem red_mask_output_binary_witness :
    (100 : Nat) ≤ 255 ∧
    (shape (redMaskBuf [[((200 : Nat), (3 : Nat), (4 : Nat))]] 100)
        = shape [[((200 : Nat), (3 : Nat), (4 : Nat))]] ∧
      ∀ y x p q, get2? [[((200 : Nat), (3 : Nat), (4 : Nat))]] y x = some p →
        get2? (redMaskBuf [[((200 : Nat), (3 : Nat), (4 : Nat))]] 100) y x = some q →
        (q.1 = q.2.1 ∧ q.1 = q.2.2) ∧ (q = (255, 255, 255) ∨ q = (0, 0, 0)) ∧
        (q = (255, 255, 255) ↔ 100 < p.1)) :=
  ⟨by decide, red_mask_output_binary [[(200, 3, 4)]] 100 (by decide)⟩

/-- C2: for every loaded buffer and channel selector c, `show_channel`
returns a same-shape buffer whose three channels all equal the input's
channel c at every pixel. -/
theorem show_channel_replicates (img : Img) (c : Channel) :
    shape (showChannelBuf img c) = shape img ∧
    ∀ y x p q, get2? img y x = some p → get2? (showChannelBuf img c) y x = some q →
      q.1 = getCh c p ∧ q.2.1 = getCh c p ∧ q.2.2 = getCh c p := by
  refine ⟨shape_map_pix _ img, ?_⟩
  intro y x p q hp hq
  unfold showChannelBuf at hq
  rw [get2?_map_pix, hp] at hq
  simp only [Option.map_some'] at hq
  obtain rfl : showChannelPix c p = q := Option.some.inj hq
  exact ⟨rfl, rfl, rfl⟩

/-- Witness for C2 at a concrete buffer with the green channel. -/
theorem show_channel_replicates_witness :
    shape (showChannelBuf [[((1 : Nat), (2 : Nat), (3 : Nat))]] Channel.G)
        = shape [[((1 : Nat), (2 : Nat), (3 : Nat))]] ∧
      ∀ y x p q, get2? [[((1 : Nat), (2 : Nat), (3 : Nat))]] y x = some p →
        get2? (showChannelBuf [[((1 : Nat), (2 : Nat), (3 : Nat))]] Channel.G) y x = some q →
        q.1 = getCh Channel.G p ∧ q.2.1 = getCh Channel.G p ∧ q.2.2 = getCh Channel.G p :=
  show_channel_replicates [[(1, 2, 3)]] Channel.G

/-- C3 counterexample: the claim asserts some 8-bit buffer and threshold
t in [0,255] exist where re-masking the mask output changes it; no such
pair exists — re-applying `red_mask` with the same threshold is a
fixed point. -/
theorem red_mask_reapply_never_differs :
    ¬ ∃ (img : Img) (t : Nat), wfB img = true ∧ t ≤ 255 ∧
      redMaskBuf (redMaskBuf img t) t ≠ redMaskBuf img t := by
  rintro ⟨img, t, hwf, -, hne⟩
  exact hne (redMask_idem_aux img t hwf)

/-- C3 amended: for every 8-bit buffer and threshold t in [0,255],
`mask(mask(buffer,t),t) = mask(buffer,t)` — the threshold mask is
idempotent on its own output. -/
theorem red_mask_idempotent (img : Img) (t : Nat) (hwf : wfB img = true)
    (ht : t ≤ 255) :
    redMaskBuf (redMaskBuf img t) t = redMaskBuf img t :=
  redMask_idem_aux img t hwf

/-- Witness for the amended C3 at a concrete buffer and threshold 100. -/
theorem red_mask_idempotent_witness :
    wfB [[((200 : Nat), (3 : Nat), (4 : Nat)), ((10 : Nat), (0 : Nat), (0 : Nat))]] = true ∧
    (100 : Nat) ≤ 255 ∧
    redMaskBuf (redMaskBuf [[((200 : Nat), (3 : Nat), (4 : Nat)),
        ((10 : Nat), (0 : Nat), (0 : Nat))]] 100) 100
      = redMaskBuf [[((200 : Nat), (3 : Nat), (4 : Nat)),
        ((10 : Nat), (0 : Nat), (0 : Nat))]] 100 :=
  ⟨by decide, by decide,
    red_mask_idempotent [[(200, 3, 4), (10, 0, 0)]] 100 (by decide) (by decide)⟩

/-- C10: the mask output depends only on the red channel — two buffers
of equal shape with identical red channels produce identical mask
outputs for every threshold (two-run noninterference: green and blue
never influence any output sample). -/
theorem red_mask_noninterference (b1 b2 : Img) (t : Nat)
    (hsh : shape b1 = shape b2) (hred : redChannel b1 = redChannel b2) :
    redMaskBuf b1 t = redMaskBuf b2 t := by
  rw [redMaskBuf_ofRed, redMaskBuf_ofRed, hred]

/-- Witness for C10: two concrete buffers differing only in green and
blue produce the same mask. -/
theorem red_mask_noninterference_witness :
    shape [[((5 : Nat), (0 : Nat), (0 : Nat))]] = shape [[((5 : Nat), (9 : Nat), (9 : Nat))]] ∧
    redChannel [[((5 : Nat), (0 : Nat), (0 : Nat))]]
      = redChannel [[((5 : Nat), (9 : Nat), (9 : Nat))]] ∧
    redMaskBuf [[((5 : Nat), (0 : Nat), (0 : Nat))]] 3
      = redMaskBuf [[((5 : Nat), (9 : Nat), (9 : Nat))]] 3 :=
  ⟨by decide, by decide,
    red_mask_noninterference [[(5, 0, 0)]] [[(5, 9, 9)]] 3 (by decide) (by decide)⟩

theorem onRectOutline_swap (x1 y1 x2 y2 x y : Nat) :
    onRectOutline x1 y1 x2 y2 x y = onRectOutline x2 y2 x1 y1 x y := by
  unfold onRectOutline
  rw [Nat.min_comm x1 x2, Nat.max_comm x1 x2, Nat.min_comm y1 y2, Nat.max_comm y1 y2]

/-- C7: `draw_rectangle` is corner-order independent — drawing with the
corners given as ((x1,y1),(x2,y2)) equals drawing with ((x2,y2),(x1,y1))
on every buffer. -/
theorem draw_rectangle_corner_order (img : Img) (x1 y1 x2 y2 : Nat) :
    drawRectBuf img x1 y1 x2 y2 = drawRectBuf img x2 y2 x1 y1 := by
  unfold drawRectBuf
  congr 1
  funext y row
  congr 1
  funext x p
  rw [onRectOutline_swap]

/-- C4 counterexample: after a successful channel extraction the
current-buffer slot does not hold the transform's output — `self.img`
is never reassigned by the transform callbacks. -/
theorem transform_result_not_stored :
    ¬ ((showChannelH (some [[((1 : Nat), (2 : Nat), (3 : Nat))]]) Channel.R).img
        = some (showChannelBuf [[((1 : Nat), (2 : Nat), (3 : Nat))]] Channel.R)) := by
  decide

/-- C4 amended: after every successful transform the current-buffer
slot still holds the pre-transform buffer unchanged (HasImage →
HasImage with the same value); the transform's output goes only to the
display, never into the slot. -/
theorem transforms_leave_slot_unchanged (img : Img) (c : Channel)
    (t x1 y1 x2 y2 : Nat) :
    showChannelH (some img) c = ⟨some img, some (showChannelBuf img c), false⟩ ∧
    redMaskH (some img) (some t) = ⟨some img, some (redMaskBuf img t), false⟩ ∧
    sharpenH (some img) = ⟨some img, some (sharpenBuf img), false⟩ ∧
    drawRectangleH (some img) (some x1) (some y1) (some x2) (some y2)
      = ⟨some img, some (drawRectBuf img x1 y1 x2 y2), false⟩ :=
  ⟨rfl, rfl, rfl, rfl⟩

/-- C8: invoking any of the four transforms with no image loaded fires
the warning dialog, produces no display output, and leaves the buffer
slot absent. -/
theorem no_image_warns_no_change (c : Channel) (t : Option Nat)
    (o1 o2 o3 o4 : Option Nat) :
    showChannelH none c = ⟨none, none, true⟩ ∧
    redMaskH none t = ⟨none, none, true⟩ ∧
    sharpenH none = ⟨none, none, true⟩ ∧
    drawRectangleH none o1 o2 o3 o4 = ⟨none, none, true⟩ :=
  ⟨rfl, rfl, rfl, rfl⟩

/-- C9: a dismissed prompt aborts `red_mask` and `draw_rectangle`
silently — no display update, no warning dialog, buffer slot
unchanged. -/
theorem cancelled_prompt_aborts (img : Img) (o1 o2 o3 o4 : Option Nat)
    (h : o1 = none ∨ o2 = none ∨ o3 = none ∨ o4 = none) :
    redMaskH (some img) none = ⟨some img, none, false⟩ ∧
    drawRectangleH (some img) o1 o2 o3 o4 = ⟨some img, none, false⟩ := by
  refine ⟨rfl, ?_⟩
  cases o1 <;> cases o2 <;> cases o3 <;> cases o4 <;> simp_all [drawRectangleH]

/-- Witness for C9 with the first rectangle prompt dismissed. -/
theorem cancelled_prompt_aborts_witness :
    ((none : Option Nat) = none ∨ (some 1 : Option Nat) = none ∨
      (some 2 : Option Nat) = none ∨ (some 3 : Option Nat) = none) ∧
    (redMaskH (some [[((1 : Nat), (2 : Nat), (3 : Nat))]]) none
        = ⟨some [[((1 : Nat), (2 : Nat), (3 : Nat))]], none, false⟩ ∧
      drawRectangleH (some [[((1 : Nat), (2 : Nat), (3 : Nat))]]) none (some 1) (some 2) (some 3)
        = ⟨some [[((1 : Nat), (2 : Nat), (3 : Nat))]], none, false⟩) :=
  ⟨by decide,
    cancelled_prompt_aborts [[(1, 2, 3)]] none (some 1) (some 2) (some 3) (by decide)⟩

theorem ref101_of_inbounds (n : Nat) (i : Int) (h0 : 0 ≤ i) (hn : i < (n : Int)) :
    ref101 n i = i := by
  unfold ref101
  rw [if_neg (by omega), if_neg (by omega)]

theorem getBR_eq_of_get2? (img : Img) (yi xi : Int) (y x : Nat)
    (hyi : yi = (y : Int)) (hxi : xi = (x : Int))
    (hy : y < img.length) (hx : x < width img)
    (p : Pix) (hp : get2? img y x = some p) : getBR img yi xi = p := by
  subst hyi hxi
  unfold getBR
  rw [ref101_of_inbounds img.length (y : Int) (by omega) (by omega),
    ref101_of_inbounds (width img) (x : Int) (by omega) (by omega)]
  simp only [Int.toNat_natCast]
  rw [hp]
  rfl

theorem get2?_sharpen_some (img : Img) (y x : Nat)
    (hy : y < img.length) (hx : x < width img) :
    get2? (sharpenBuf img) y x = some (sharpenAt img y x) := by
  unfold get2? sharpenBuf
  rw [List.getElem?_map, List.getElem?_range hy]
  simp only [Option.map_some', Option.some_bind]
  rw [List.getElem?_map, List.getElem?_range hx]
  rfl

theorem get2?_sharpen_eq (img : Img) (y x : Nat) (p : Pix)
    (h : get2? (sharpenBuf img) y x = some p) : p = sharpenAt img y x := by
  by_cases hy : y < img.length
  · by_cases hx : x < width img
    · rw [get2?_sharpen_some img y x hy hx] at h
      exact (Option.some.inj h).symm
    · exfalso
      unfold get2? sharpenBuf at h
      rw [List.getElem?_map, List.getElem?_range hy] at h
      simp only [Option.map_some', Option.some_bind] at h
      rw [List.getElem?_eq_none (by simpa using Nat.le_of_not_lt hx)] at h
      exact Option.noConfusion h
  · exfalso
    unfold get2? sharpenBuf at h
    rw [List.getElem?_map,
      List.getElem?_eq_none (by simpa using Nat.le_of_not_lt hy)] at h
    exact Option.noConfusion h

theorem shape_sharpen (img : Img) (hrect : ∀ r ∈ img, r.length = width img) :
    shape (sharpenBuf img) = shape img := by
  unfold shape sharpenBuf
  rw [List.map_map]
  apply List.ext_getElem?
  intro i
  rw [List.getElem?_map, List.getElem?_map]
  by_cases hi : i < img.length
  · rw [List.getElem?_range hi, List.getElem?_eq_getElem hi]
    simp only [Option.map_some', Function.comp_apply, List.length_map,
      List.length_range, Option.some.injEq]
    exact (hrect img[i] (List.getElem_mem hi)).symm
  · rw [List.getElem?_eq_none (by simpa [List.length_range] using Nat.le_of_not_lt hi),
      List.getElem?_eq_none (Nat.le_of_not_lt hi)]
    rfl

/-- C5: `sharpen` preserves the buffer's shape and keeps every sample
of the output in [0,255] — saturating arithmetic, no wrap modulo 256. -/
theorem sharpen_shape_range (img : Img) (hwf : wfB img = true) :
    shape (sharpenBuf img) = shape img ∧
    ∀ y x p, get2? (sharpenBuf img) y x = some p →
      p.1 ≤ 255 ∧ p.2.1 ≤ 255 ∧ p.2.2 ≤ 255 := by
  refine ⟨shape_sharpen img (wfB_rect img hwf), ?_⟩
  intro y x p hp
  have h := get2?_sharpen_eq img y x p hp
  subst h
  unfold sharpenAt
  exact ⟨sat_le _, sat_le _, sat_le _⟩

/-- Witness for C5 at a concrete 2x2 buffer. -/
theorem sharpen_shape_range_witness :
    wfB [[((10 : Nat), (0 : Nat), (0 : Nat)), ((20 : Nat), (0 : Nat), (0 : Nat))],
        [((30 : Nat), (0 : Nat), (0 : Nat)), ((40 : Nat), (0 : Nat), (0 : Nat))]] = true ∧
    (shape (sharpenBuf [[((10 : Nat), (0 : Nat), (0 : Nat)), ((20 : Nat), (0 : Nat), (0 : Nat))],
        [((30 : Nat), (0 : Nat), (0 : Nat)), ((40 : Nat), (0 : Nat), (0 : Nat))]])
      = shape [[((10 : Nat), (0 : Nat), (0 : Nat)), ((20 : Nat), (0 : Nat), (0 : Nat))],
        [((30 : Nat), (0 : Nat), (0 : Nat)), ((40 : Nat), (0 : Nat), (0 : Nat))]] ∧
    ∀ y x p, get2? (sharpenBuf [[((10 : Nat), (0 : Nat), (0 : Nat)),
        ((20 : Nat), (0 : Nat), (0 : Nat))],
        [((30 : Nat), (0 : Nat), (0 : Nat)), ((40 : Nat), (0 : Nat), (0 : Nat))]]) y x = some p →
      p.1 ≤ 255 ∧ p.2.1 ≤ 255 ∧ p.2.2 ≤ 255) :=
  ⟨by decide,
    sharpen_shape_range [[(10, 0, 0), (20, 0, 0)], [(30, 0, 0), (40, 0, 0)]] (by decide)⟩

/-- C6: at every interior pixel, `sharpen` outputs, per channel, the
3x3 kernel response 5·center − up − down − left − right, saturated to
[0,255]. -/
theorem sharpen_interior_kernel (img : Img) (y x : Nat)
    (hy0 : 0 < y) (hy1 : y + 1 < img.length) (hx0 : 0 < x) (hx1 : x + 1 < width img)
    (c u d l r : Pix)
    (hc : get2? img y x = some c) (hu : get2? img (y - 1) x = some u)
    (hd : get2? img (y + 1) x = some d) (hl : get2? img y (x - 1) = some l)
    (hr : get2? img y (x + 1) = some r) :
    get2? (sharpenBuf img) y x =
      some (sat (5 * (c.1 : Int) - u.1 - d.1 - l.1 - r.1),
            sat (5 * (c.2.1 : Int) - u.2.1 - d.2.1 - l.2.1 - r.2.1),
            sat (5 * (c.2.2 : Int) - u.2.2 - d.2.2 - l.2.2 - r.2.2)) := by
  have hyl : y < img.length := by omega
  have hxl : x < width img := by omega
  rw [get2?_sharpen_some img y x hyl hxl]
  unfold sharpenAt
  rw [getBR_eq_of_get2? img (y : Int) (x : Int) y x rfl rfl hyl hxl c hc,
    getBR_eq_of_get2? img ((y : Int) - 1) (x : Int) (y - 1) x (by omega) rfl (by omega) hxl u hu,
    getBR_eq_of_get2? img ((y : Int) + 1) (x : Int) (y + 1) x (by omega) rfl (by omega) hxl d hd,
    getBR_eq_of_get2? img (y : Int) ((x : Int) - 1) y (x - 1) rfl (by omega) hyl (by omega) l hl,
    getBR_eq_of_get2? img (y : Int) ((x : Int) + 1) y (x + 1) rfl (by omega) hyl (by omega) r hr]

/-- Witness for C6 at the center of a concrete 3x3 buffer:
5·10 − 2 − 8 − 4 − 6 = 30 in the red channel. -/
theorem sharpen_interior_kernel_witness :
    (0 < 1 ∧ 1 + 1 < List.length [[((1 : Nat), (0 : Nat), (0 : Nat)), (2, 0, 0), (3, 0, 0)],
        [(4, 0, 0), (10, 0, 0), (6, 0, 0)], [(7, 0, 0), (8, 0, 0), (9, 0, 0)]] ∧
      1 + 1 < width [[((1 : Nat), (0 : Nat), (0 : Nat)), (2, 0, 0), (3, 0, 0)],
        [(4, 0, 0), (10, 0, 0), (6, 0, 0)], [(7, 0, 0), (8, 0, 0), (9, 0, 0)]]) ∧
    get2? (sharpenBuf [[((1 : Nat), (0 : Nat), (0 : Nat)), (2, 0, 0), (3, 0, 0)],
        [(4, 0, 0), (10, 0, 0), (6, 0, 0)], [(7, 0, 0), (8, 0, 0), (9, 0, 0)]]) 1 1
      = some (30, 0, 0) := by
  refine ⟨by decide, ?_⟩
  have h := sharpen_interior_kernel
    [[((1 : Nat), (0 : Nat), (0 : Nat)), (2, 0, 0), (3, 0, 0)],
      [(4, 0, 0), (10, 0, 0), (6, 0, 0)], [(7, 0, 0), (8, 0, 0), (9, 0, 0)]] 1 1
    (by decide) (by decide) (by decide) (by decide)
    (10, 0, 0) (2, 0, 0) (8, 0, 0) (4, 0, 0) (6, 0, 0)
    (by decide) (by decide) (by decide) (by decide) (by decide)
  simpa [sat] using h
